import Mathlib

/-!
Shallow embedding of the core of `atlas_world` (`src/lib.rs`): the tile-atlas
lookup (`Collection::get_tile`), the player movement/turn state machine
(`Player`), and the scene-renderer traversal (`AtlasWorld::render` and the
`draw_*` family), together with theorems settling the specification claims.

Modelling conventions:
* Rust `i32` values are modelled as `ℤ` (no arithmetic here comes near
  overflow), `u8` map-layer bytes as `ℕ`, `usize` dimensions as `ℕ`.
* `AHashMap` is modelled as an association list; `get` is `List.lookup`
  (keys are unique in the source maps, so first-match lookup agrees).
* Rust slice indexing `layer[y][x]` (which panics out of bounds) is modelled
  by `List.getD` with a default; every access in the source is guarded by the
  same bounds check modelled by `AtlasMap.inBounds`, so under the
  well-formedness predicate `AtlasMap.WF` the default is never consulted.
* The `f32` trigonometry in `Player::get_dest_pos` is idealised as exact real
  arithmetic: `to_radians` is multiplication by `π / 180`, and the Rust
  `as i32` cast is truncation toward zero (`truncReal`).
* The graphics side (`Texture2D`, `draw_texture_ex`) is external; rendering
  is modelled as the ordered list of tile-draw requests (`DrawCall`) that the
  source passes to `draw_tile`.
* Rust integer `/` and `%` truncate toward zero, so they are modelled by
  `Int.tdiv` and `Int.tmod`.
-/

/-- The `Coords` rectangle struct of `lib.rs` (fields `h, w, x, y : i32`). -/
structure Coords where
  h : ℤ
  w : ℤ
  x : ℤ
  y : ℤ
deriving DecidableEq, Repr

/-- The `Tile` struct of `lib.rs`: source rectangle, destination rectangle,
local coordinates `(x, z)` and an optional orientation tag. -/
structure Tile where
  atlas_coords : Coords
  screen_coords : Coords
  x : ℤ
  z : ℤ
  orientation : Option String
deriving DecidableEq, Repr

/-- The `Tiles` struct of `lib.rs`: a named layer of tiles. The Rust field
`r#type` is called `type` here. -/
structure Tiles where
  mode : ℤ
  name : String
  tiles : List Tile
  type : ℤ
deriving DecidableEq

/-- The `AtlasInfo` struct: layer name → layer, an `AHashMap` in the source,
modelled as an association list with unique keys. -/
structure AtlasInfo where
  layers : List (String × Tiles)
deriving DecidableEq

/-- The `Atlas` struct. The `texture : Texture2D` field is external graphics
state and carries no information used by `get_tile`, so it is omitted. -/
structure Atlas where
  atlas_info : AtlasInfo
deriving DecidableEq

/-- The `AtlasCollection` type: atlas id → atlas. -/
def AtlasCollection := List (String × Atlas)

/-- The body of the `for tile in &layer.tiles` loop of `Collection::get_tile`
(`lib.rs` 76-82): return the first tile whose `(x, z)` equals the query and
whose orientation is `None` or equal to the query orientation. -/
def findFirstTile : List Tile → ℤ → ℤ → Option String → Option Tile
  | [], _, _, _ => none
  | t :: rest, x, z, o =>
    if t.x == x && t.z == z then
      if t.orientation.isNone || t.orientation == o then some t
      else findFirstTile rest x z o
    else findFirstTile rest x z o

/-- The `Collection::get_tile` method (`lib.rs` 65-85): look the atlas up by
id, then the layer by id, returning `none` when either is absent, then scan
the layer's tile list in order. -/
def AtlasCollection.get_tile (c : AtlasCollection) (atlas_id layer_id : String)
    (x z : ℤ) ( orientation : Option String) : Option Tile :=
  match List.lookup atlas_id c with
  | none => none
  | some atlas =>
    match List.lookup layer_id atlas.atlas_info.layers with
    | none => none
    | some layer => findFirstTile layer.tiles x z orientation

/-- The matching test applied to each tile by the `get_tile` loop, as a single
boolean predicate (conjunction of the two nested `if` conditions at
`lib.rs` 77-78). -/
def tileMatches (x z : ℤ) ( orientation : Option String) (t : Tile) : Bool :=
  (t.x == x && t.z == z) && (t.orientation.isNone || t.orientation == orientation)

/-- The `AtlasMap` struct (`lib.rs` 188-196): dimensions plus four byte
layers, each indexed `layer[y][x]`. -/
structure AtlasMap where
  width : ℕ
  height : ℕ
  wall : List (List ℕ)
  floor : List (List ℕ)
  ceiling : List (List ℕ)
  object : List (List ℕ)

/-- Rust `layer[pos.y as usize][pos.x as usize]`. The source casts after the
bounds check, so both indices are nonnegative when this is reached; the
`getD` defaults model the (never-taken, under `AtlasMap.WF` plus the bounds
check) panic branch of slice indexing. -/
def layerVal (layer : List (List ℕ)) (x y : ℤ) : ℕ :=
  (layer.getD y.toNat []).getD x.toNat 0

/-- The bounds test `pos.x >= 0 && pos.y >= 0 && pos.x < map.width as i32 &&
pos.y < map.height as i32`, written inline in `can_move` (`lib.rs` 106) and
repeated verbatim in each `draw_*` method (`lib.rs` 222, 247, 259, 271). -/
def AtlasMap.inBounds (m : AtlasMap) (pos : ℤ × ℤ) : Bool :=
  decide (pos.1 ≥ 0) && decide (pos.2 ≥ 0) &&
    decide (pos.1 < (m.width : ℤ)) && decide (pos.2 < (m.height : ℤ))

/-- Well-formedness of a map per the spec: each of the four layers has exactly
`height` rows of exactly `width` columns. -/
def AtlasMap.WF (m : AtlasMap) : Prop :=
  (m.wall.length = m.height ∧ ∀ r ∈ m.wall, r.length = m.width) ∧
  (m.floor.length = m.height ∧ ∀ r ∈ m.floor, r.length = m.width) ∧
  (m.ceiling.length = m.height ∧ ∀ r ∈ m.ceiling, r.length = m.width) ∧
  (m.object.length = m.height ∧ ∀ r ∈ m.object, r.length = m.width)

instance (m : AtlasMap) : Decidable m.WF := by
  unfold AtlasMap.WF
  infer_instance

/-- The `Player` struct (`lib.rs` 88-92). -/
structure Player where
  x : ℤ
  y : ℤ
  direction : ℤ
deriving DecidableEq, Repr

/-- The spec invariant on a player state: in bounds and a legal direction. -/
def Player.Inv (p : Player) (m : AtlasMap) : Prop :=
  0 ≤ p.x ∧ p.x < (m.width : ℤ) ∧ 0 ≤ p.y ∧ p.y < (m.height : ℤ) ∧
    (p.direction = 0 ∨ p.direction = 1 ∨ p.direction = 2 ∨ p.direction = 3)

instance (p : Player) (m : AtlasMap) : Decidable (p.Inv m) := by
  unfold Player.Inv
  infer_instance

/-- The `Player::get_direction_vector_offsets` method (`lib.rs` 95-103): the
projector from local `(x, z)` offsets to world coordinates; the `_` branch is
the source's `IVec2::NEG_ONE`. -/
def Player.get_direction_vector_offsets (p : Player) (x z : ℤ) : ℤ × ℤ :=
  match p.direction with
  | 0 => (p.x + x, p.y + z)
  | 1 => (p.x - z, p.y + x)
  | 2 => (p.x - x, p.y - z)
  | 3 => (p.x + z, p.y - x)
  | _ => (-1, -1)

/-- The `Player::can_move` method (`lib.rs` 105-107): in bounds and the wall
layer holds `0` at the destination. -/
def Player.can_move (p : Player) (m : AtlasMap) (pos : ℤ × ℤ) : Bool :=
  m.inBounds pos && (layerVal m.wall pos.1 pos.2 == 0)

/-- The `Player::invert_direction` method (`lib.rs` 109-111); Rust `%` is
truncated remainder, `Int.tmod`. -/
def Player.invert_direction (p : Player) : ℤ :=
  Int.tmod (p.direction + 2) 4

/-- Rust `r as i32` on an `f32` value in range: truncation toward zero. -/
noncomputable def truncReal (r : ℝ) : ℤ :=
  if 0 ≤ r then ⌊r⌋ else ⌈r⌉

/-- The `Player::get_dest_pos` method (`lib.rs` 113-124):
`(sin((direction*90)°) as i32 + x, -(cos((direction*90)°) as i32) + y)`, with
the `f32` trigonometry idealised as exact real arithmetic (`to_radians` is
multiplication by `π / 180`). -/
noncomputable def Player.get_dest_pos (p : Player) (direction : ℤ) : ℤ × ℤ :=
  (truncReal (Real.sin (((direction * 90 : ℤ) : ℝ) * (Real.pi / 180))) + p.x,
   -(truncReal (Real.cos (((direction * 90 : ℤ) : ℝ) * (Real.pi / 180)))) + p.y)

/-- The `Player::move_forward` method (`lib.rs` 126-134). -/
noncomputable def Player.move_forward (p : Player) (m : AtlasMap) : Player :=
  let dest_pos := p.get_dest_pos p.direction
  if p.can_move m dest_pos then { p with x := dest_pos.1, y := dest_pos.2 } else p

/-- The `Player::move_backward` method (`lib.rs` 136-144). -/
noncomputable def Player.move_backward (p : Player) (m : AtlasMap) : Player :=
  let dest_pos := p.get_dest_pos p.invert_direction
  if p.can_move m dest_pos then { p with x := dest_pos.1, y := dest_pos.2 } else p

/-- The `Player::strafe_left` method (`lib.rs` 146-159): step in direction
`direction - 1`, wrapped to `3` when negative. -/
noncomputable def Player.strafe_left (p : Player) (m : AtlasMap) : Player :=
  let direction := if p.direction - 1 < 0 then 3 else p.direction - 1
  let dest_pos := p.get_dest_pos direction
  if p.can_move m dest_pos then { p with x := dest_pos.1, y := dest_pos.2 } else p

/-- The `Player::strafe_right` method (`lib.rs` 161-171): step in direction
`(direction + 1) % 4`. -/
noncomputable def Player.strafe_right (p : Player) (m : AtlasMap) : Player :=
  let direction := Int.tmod (p.direction + 1) 4
  let dest_pos := p.get_dest_pos direction
  if p.can_move m dest_pos then { p with x := dest_pos.1, y := dest_pos.2 } else p

/-- The `Player::turn_left` method (`lib.rs` 173-178): decrement, wrapping
`-1` to `3`; consults no map. -/
def Player.turn_left (p : Player) : Player :=
  { p with direction := if p.direction - 1 < 0 then 3 else p.direction - 1 }

/-- The `Player::turn_right` method (`lib.rs` 180-185): increment, wrapping
`4` to `0`; consults no map. -/
def Player.turn_right (p : Player) : Player :=
  { p with direction := if p.direction + 1 > 3 then 0 else p.direction + 1 }

/-- The six player operations exposed to the input handler. -/
inductive Op where
  | move_forward
  | move_backward
  | strafe_left
  | strafe_right
  | turn_left
  | turn_right

/-- Apply one operation to the player against a fixed map. -/
noncomputable def applyOp (m : AtlasMap) (p : Player) : Op → Player
  | .move_forward => p.move_forward m
  | .move_backward => p.move_backward m
  | .strafe_left => p.strafe_left m
  | .strafe_right => p.strafe_right m
  | .turn_left => p.turn_left
  | .turn_right => p.turn_right

/-- Apply a sequence of operations, left to right. -/
noncomputable def applyOps (m : AtlasMap) (p : Player) : List Op → Player
  | [] => p
  | op :: rest => applyOps m (applyOp m p op) rest

/-- One tile-draw request: the argument tuple the renderer passes to
`AtlasWorld::draw_tile` (`lib.rs` 286-293). -/
structure DrawCall where
  atlas_id : String
  layer_id : String
  x : ℤ
  z : ℤ
  orientation : Option String
deriving DecidableEq, Repr

/-- The `AtlasWorld` struct (`lib.rs` 198-204). -/
structure AtlasWorld where
  player : Player
  map : AtlasMap
  collection : AtlasCollection
  render_depth : ℤ
  render_width : ℤ

/-- The `AtlasWorld::draw_side_walls` method (`lib.rs` 244-254): a "left"
then a "right" wall request when the projected cell is in bounds and has a
nonzero wall value. -/
def AtlasWorld.draw_side_walls (w : AtlasWorld) (x z : ℤ) : List DrawCall :=
  let p := w.player.get_direction_vector_offsets x z
  if w.map.inBounds p then
    let wall_value := layerVal w.map.wall p.1 p.2
    if wall_value ≠ 0 then
      [⟨"dungeon", "wall-" ++ toString wall_value, x, z, some "left"⟩,
       ⟨"dungeon", "wall-" ++ toString wall_value, x, z, some "right"⟩]
    else []
  else []

/-- The `AtlasWorld::draw_front_walls` method (`lib.rs` 256-265). -/
def AtlasWorld.draw_front_walls (w : AtlasWorld) (x z : ℤ) : List DrawCall :=
  let p := w.player.get_direction_vector_offsets x z
  if w.map.inBounds p then
    let wall_value := layerVal w.map.wall p.1 p.2
    if wall_value ≠ 0 then
      [⟨"dungeon", "wall-" ++ toString wall_value, x, z, some "front"⟩]
    else []
  else []

/-- The `AtlasWorld::draw_objects` method (`lib.rs` 267-284): one request
from atlas `"common_objects"`, layer `"object-{v}"`, oriented by the player's
own facing. The `_` branch models the source's `unreachable!()` panic and is
never taken for a direction in `{0,1,2,3}`. -/
def AtlasWorld.draw_objects (w : AtlasWorld) (x z : ℤ) : List DrawCall :=
  let p := w.player.get_direction_vector_offsets x z
  if w.map.inBounds p then
    let map_value := layerVal w.map.object p.1 p.2
    if map_value ≠ 0 then
      let orientation : Option String :=
        some (match w.player.direction with
          | 0 => "front"
          | 1 => "right"
          | 2 => "back"
          | 3 => "left"
          | _ => "unreachable")
      [⟨"common_objects", "object-" ++ toString map_value, x, z, orientation⟩]
    else []
  else []

/-- The `AtlasWorld::draw_map_square` method (`lib.rs` 219-242): inside
bounds, emit floor, then ceiling, then side+front walls, then object
requests, each gated on a nonzero value in its layer. -/
def AtlasWorld.draw_map_square (w : AtlasWorld) (x z : ℤ) : List DrawCall :=
  let p := w.player.get_direction_vector_offsets x z
  if w.map.inBounds p then
    (if layerVal w.map.floor p.1 p.2 ≠ 0 then
      [⟨"dungeon", "floor-" ++ toString (layerVal w.map.floor p.1 p.2), x, z, none⟩]
     else []) ++
    (if layerVal w.map.ceiling p.1 p.2 ≠ 0 then
      [⟨"dungeon", "ceiling-" ++ toString (layerVal w.map.ceiling p.1 p.2), x, z, none⟩]
     else []) ++
    (if layerVal w.map.wall p.1 p.2 ≠ 0 then
      w.draw_side_walls x z ++ w.draw_front_walls x z
     else []) ++
    (if layerVal w.map.object p.1 p.2 ≠ 0 then w.draw_objects x z else [])
  else []

/-- The integer half-open range `a..b` of a Rust `for` loop, as a list. -/
def intRange (a b : ℤ) : List ℤ :=
  (List.range (b - a).toNat).map fun i => a + (i : ℤ)

/-- The `AtlasWorld::render` method (`lib.rs` 207-216): for `z` in
`-render_depth..1`, visit `x` in `(-render_width / 2)..0`, then `x` in
`(0..=(render_width / 2)).rev()`, drawing each square. -/
def AtlasWorld.render (w : AtlasWorld) : List DrawCall :=
  (intRange (-w.render_depth) 1).flatMap fun z =>
    ((intRange (Int.tdiv (-w.render_width) 2) 0).flatMap fun x =>
      w.draw_map_square x z) ++
    ((intRange 0 (Int.tdiv w.render_width 2 + 1)).reverse.flatMap fun x =>
      w.draw_map_square x z)

/-- Modelled from the spec (§4.4 traversal order), for comparison with
`AtlasWorld.render`: for each forward value from farthest (`-depth`) to
nearest (`0`), first every lateral from the leftmost column (`-width/2`) up
to but excluding the center column in increasing order, then every lateral
from the rightmost column (`width/2`) down to the center column in
decreasing order. -/
def specTraversalOrder (depth width : ℤ) : List (ℤ × ℤ) :=
  (intRange (-depth) 1).flatMap fun z =>
    ((intRange (-(Int.tdiv width 2)) 0).map fun x => (x, z)) ++
    ((intRange 0 (Int.tdiv width 2 + 1)).reverse.map fun x => (x, z))

/-- Example map (the spec's §8 border scenario, cut to 3×3): a wall at cell
`(1, 0)`, everything else open. -/
def exMap3 : AtlasMap :=
  ⟨3, 3,
   [[0, 1, 0], [0, 0, 0], [0, 0, 0]],
   [[0, 0, 0], [0, 0, 0], [0, 0, 0]],
   [[0, 0, 0], [0, 0, 0], [0, 0, 0]],
   [[0, 0, 0], [0, 0, 0], [0, 0, 0]]⟩

/-- Example map: 3×3, fully open. -/
def exMapOpen : AtlasMap :=
  ⟨3, 3,
   [[0, 0, 0], [0, 0, 0], [0, 0, 0]],
   [[0, 0, 0], [0, 0, 0], [0, 0, 0]],
   [[0, 0, 0], [0, 0, 0], [0, 0, 0]],
   [[0, 0, 0], [0, 0, 0], [0, 0, 0]]⟩

/-- Example player at `(1, 1)` facing north (`direction = 0`). -/
def exPlayer0 : Player := ⟨1, 1, 0⟩

/-- Example map (the spec's §8 object scenario): 8×8, object value `3` at
world cell `(4, 4)`, all other layers empty. -/
def exMapObj : AtlasMap :=
  ⟨8, 8,
   List.replicate 8 (List.replicate 8 0),
   List.replicate 8 (List.replicate 8 0),
   List.replicate 8 (List.replicate 8 0),
   [[0, 0, 0, 0, 0, 0, 0, 0],
    [0, 0, 0, 0, 0, 0, 0, 0],
    [0, 0, 0, 0, 0, 0, 0, 0],
    [0, 0, 0, 0, 0, 0, 0, 0],
    [0, 0, 0, 0, 3, 0, 0, 0],
    [0, 0, 0, 0, 0, 0, 0, 0],
    [0, 0, 0, 0, 0, 0, 0, 0],
    [0, 0, 0, 0, 0, 0, 0, 0]]⟩

/-- Example player at `(4, 3)` facing south (`direction = 2`), adjacent to
the object cell `(4, 4)` of `exMapObj` and looking at it. -/
def exPlayerS : Player := ⟨4, 3, 2⟩

/-- Example atlas with no layers. -/
def exAtlas : Atlas := ⟨⟨[]⟩⟩

/-- Example collection holding only the atlas id `"dungeon"`. -/
def exCollection : AtlasCollection := [("dungeon", exAtlas)]

/-- Example world around `exPlayerS` and `exMapObj`, with the reference
render-window constants. -/
def exWorldObj : AtlasWorld := ⟨exPlayerS, exMapObj, [], 9, 22⟩

/-- Truncation of `0` is `0`. -/
theorem truncReal_zero : truncReal 0 = 0 := by
  simp [truncReal]

/-- Truncation of `1` is `1`. -/
theorem truncReal_one : truncReal 1 = 1 := by
  simp [truncReal]

/-- Truncation of `-1` is `-1`. -/
theorem truncReal_neg_one : truncReal (-1) = -1 := by
  rw [truncReal, if_neg (by norm_num),
    show ((-1 : ℝ)) = ((-1 : ℤ) : ℝ) by push_cast; ring, Int.ceil_intCast]

/-- Direction `0` steps to `(x, y - 1)` (north). -/
theorem get_dest_pos_zero (p : Player) : p.get_dest_pos 0 = (p.x, p.y - 1) := by
  unfold Player.get_dest_pos
  rw [show (((0 * 90 : ℤ) : ℝ) * (Real.pi / 180)) = 0 by push_cast; ring,
    Real.sin_zero, Real.cos_zero, truncReal_zero, truncReal_one, Prod.mk.injEq]
  exact ⟨by ring, by ring⟩

/-- Direction `1` steps to `(x + 1, y)` (east). -/
theorem get_dest_pos_one (p : Player) : p.get_dest_pos 1 = (p.x + 1, p.y) := by
  unfold Player.get_dest_pos
  rw [show (((1 * 90 : ℤ) : ℝ) * (Real.pi / 180)) = Real.pi / 2 by push_cast; ring,
    Real.sin_pi_div_two, Real.cos_pi_div_two, truncReal_one, truncReal_zero,
    Prod.mk.injEq]
  exact ⟨by ring, by ring⟩

/-- Direction `2` steps to `(x, y + 1)` (south). -/
theorem get_dest_pos_two (p : Player) : p.get_dest_pos 2 = (p.x, p.y + 1) := by
  unfold Player.get_dest_pos
  rw [show (((2 * 90 : ℤ) : ℝ) * (Real.pi / 180)) = Real.pi by push_cast; ring,
    Real.sin_pi, Real.cos_pi, truncReal_zero, truncReal_neg_one, Prod.mk.injEq]
  exact ⟨by ring, by ring⟩

/-- Direction `3` steps to `(x - 1, y)` (west). -/
theorem get_dest_pos_three (p : Player) : p.get_dest_pos 3 = (p.x - 1, p.y) := by
  unfold Player.get_dest_pos
  rw [show (((3 * 90 : ℤ) : ℝ) * (Real.pi / 180)) = Real.pi / 2 + Real.pi by
      push_cast; ring,
    Real.sin_add_pi, Real.cos_add_pi, Real.sin_pi_div_two, Real.cos_pi_div_two,
    neg_zero, truncReal_neg_one, truncReal_zero, Prod.mk.injEq]
  exact ⟨by ring, by ring⟩

/-- C4: for every direction `d ∈ {0,1,2,3}`, `Player::get_dest_pos`, computed
via sine and cosine of `d·90°` cast to an integer, returns the player's
position plus exactly the unit step `(0,-1)` for `d=0`, `(1,0)` for `d=1`,
`(0,1)` for `d=2` and `(-1,0)` for `d=3`: the trigonometric formula is
equivalent to the direct lookup table. -/
theorem c4_step_destination_table (p : Player) :
    p.get_dest_pos 0 = (p.x + 0, p.y + -1) ∧
    p.get_dest_pos 1 = (p.x + 1, p.y + 0) ∧
    p.get_dest_pos 2 = (p.x + 0, p.y + 1) ∧
    p.get_dest_pos 3 = (p.x + -1, p.y + 0) := by
  refine ⟨?_, ?_, ?_, ?_⟩
  · rw [get_dest_pos_zero, Prod.mk.injEq]; exact ⟨by ring, by ring⟩
  · rw [get_dest_pos_one, Prod.mk.injEq]; exact ⟨by ring, by ring⟩
  · rw [get_dest_pos_two, Prod.mk.injEq]; exact ⟨by ring, by ring⟩
  · rw [get_dest_pos_three, Prod.mk.injEq]; exact ⟨by ring, by ring⟩

/-- C3: `Player::get_direction_vector_offsets` (called with `x` = lateral,
`z` = forward) realises exactly the spec's four-case rotation, and at local
offset `(0, 0)` returns the player's own position for all four directions. -/
theorem c3_local_to_world (p : Player) (lateral forward : ℤ) :
    (p.direction = 0 →
      p.get_direction_vector_offsets lateral forward = (p.x + lateral, p.y + forward)) ∧
    (p.direction = 1 →
      p.get_direction_vector_offsets lateral forward = (p.x - forward, p.y + lateral)) ∧
    (p.direction = 2 →
      p.get_direction_vector_offsets lateral forward = (p.x - lateral, p.y - forward)) ∧
    (p.direction = 3 →
      p.get_direction_vector_offsets lateral forward = (p.x + forward, p.y - lateral)) ∧
    ((p.direction = 0 ∨ p.direction = 1 ∨ p.direction = 2 ∨ p.direction = 3) →
      p.get_direction_vector_offsets 0 0 = (p.x, p.y)) := by
  refine ⟨fun h => ?_, fun h => ?_, fun h => ?_, fun h => ?_, fun h => ?_⟩
  · simp [Player.get_direction_vector_offsets, h]
  · simp [Player.get_direction_vector_offsets, h]
  · simp [Player.get_direction_vector_offsets, h]
  · simp [Player.get_direction_vector_offsets, h]
  · rcases h with h | h | h | h <;> simp [Player.get_direction_vector_offsets, h]

/-- Witness for C3 at a concrete player and offsets. -/
theorem c3_witness :
    (Player.mk 5 7 0).direction = 0 ∧
    (Player.mk 5 7 0).get_direction_vector_offsets 2 (-3) = (5 + 2, 7 + (-3)) ∧
    (Player.mk 5 7 0).get_direction_vector_offsets 0 0 = (5, 7) :=
  ⟨rfl, (c3_local_to_world (Player.mk 5 7 0) 2 (-3)).1 rfl,
   (c3_local_to_world (Player.mk 5 7 0) 0 0).2.2.2.2 (Or.inl rfl)⟩

/-- C9: from any direction `d ∈ {0,1,2,3}`, `turn_left` then `turn_right`
(and the reverse) returns the player to its exact starting state, and four
`turn_right` in a row do as well; the turn operations take no map argument
and never fail. -/
theorem c9_turn_closure (p : Player)
    (h : p.direction = 0 ∨ p.direction = 1 ∨ p.direction = 2 ∨ p.direction = 3) :
    (p.turn_left).turn_right = p ∧ (p.turn_right).turn_left = p ∧
    (((p.turn_right).turn_right).turn_right).turn_right = p := by
  cases p with
  | mk x y d =>
    rcases h with h | h | h | h <;>
      · rw [show d = _ from h]
        refine ⟨?_, ?_, ?_⟩ <;> norm_num [Player.turn_left, Player.turn_right]

/-- Witness for C9 at a concrete player. -/
theorem c9_witness :
    (Player.mk 2 3 1).direction = 1 ∧
    ((Player.mk 2 3 1).turn_left).turn_right = Player.mk 2 3 1 ∧
    ((((Player.mk 2 3 1).turn_right).turn_right).turn_right).turn_right =
      Player.mk 2 3 1 := by
  have h := c9_turn_closure (Player.mk 2 3 1) (Or.inr (Or.inl rfl))
  exact ⟨rfl, h.1, h.2.2⟩

/-- A successful `can_move` guarantees the destination is inside the map. -/
theorem can_move_bounds {p : Player} {m : AtlasMap} {pos : ℤ × ℤ}
    (h : p.can_move m pos = true) :
    0 ≤ pos.1 ∧ pos.1 < (m.width : ℤ) ∧ 0 ≤ pos.2 ∧ pos.2 < (m.height : ℤ) := by
  simp only [Player.can_move, AtlasMap.inBounds, Bool.and_eq_true,
    decide_eq_true_eq, ge_iff_le] at h
  exact ⟨h.1.1.1.1, h.1.1.2, h.1.1.1.2, h.1.2⟩

/-- The common commit-or-stay shape of the four movement operations preserves
the player invariant. -/
theorem inv_move_step (p : Player) (m : AtlasMap) (d : ℤ × ℤ) (h : p.Inv m) :
    (if p.can_move m d then { p with x := d.1, y := d.2 } else p).Inv m := by
  by_cases hc : p.can_move m d = true
  · rw [if_pos hc]
    obtain ⟨h1, h2, h3, h4⟩ := can_move_bounds hc
    exact ⟨h1, h2, h3, h4, h.2.2.2.2⟩
  · rw [if_neg hc]
    exact h

/-- Each single operation preserves the player invariant. -/
theorem inv_applyOp (m : AtlasMap) (p : Player) (op : Op) (h : p.Inv m) :
    (applyOp m p op).Inv m := by
  cases op with
  | move_forward =>
    have := inv_move_step p m (p.get_dest_pos p.direction) h
    simpa [applyOp, Player.move_forward] using this
  | move_backward =>
    have := inv_move_step p m (p.get_dest_pos p.invert_direction) h
    simpa [applyOp, Player.move_backward] using this
  | strafe_left =>
    have := inv_move_step p m
      (p.get_dest_pos (if p.direction - 1 < 0 then 3 else p.direction - 1)) h
    simpa [applyOp, Player.strafe_left] using this
  | strafe_right =>
    have := inv_move_step p m (p.get_dest_pos (Int.tmod (p.direction + 1) 4)) h
    simpa [applyOp, Player.strafe_right] using this
  | turn_left =>
    obtain ⟨h1, h2, h3, h4, hd⟩ := h
    refine ⟨h1, h2, h3, h4, ?_⟩
    rcases hd with hd | hd | hd | hd <;>
      · simp only [applyOp, Player.turn_left, hd]
        norm_num
  | turn_right =>
    obtain ⟨h1, h2, h3, h4, hd⟩ := h
    refine ⟨h1, h2, h3, h4, ?_⟩
    rcases hd with hd | hd | hd | hd <;>
      · simp only [applyOp, Player.turn_right, hd]
        norm_num

/-- C1: over any well-formed map, the player invariant (in bounds and a legal
direction) is preserved by every sequence of the six operations; moves off
the edge are rejected by the bounds conjunct of `can_move` itself, so this
holds for every map, including wall-free ones. -/
theorem c1_bounds_invariant (m : AtlasMap) (p : Player) (ops : List Op)
    (hwf : m.WF) (h : p.Inv m) : (applyOps m p ops).Inv m := by
  induction ops generalizing p with
  | nil => exact h
  | cons op rest ih => exact ih (applyOp m p op) (inv_applyOp m p op h)

/-- Witness for C1: a concrete run on the bordered 3×3 example map. -/
theorem c1_witness :
    exMap3.WF ∧ exPlayer0.Inv exMap3 ∧
    (applyOps exMap3 exPlayer0
      [Op.turn_right, Op.move_forward, Op.turn_left, Op.move_backward]).Inv exMap3 :=
  ⟨by decide, by decide,
   c1_bounds_invariant exMap3 exPlayer0
     [Op.turn_right, Op.move_forward, Op.turn_left, Op.move_backward]
     (by decide) (by decide)⟩

/-- An out-of-bounds or walled destination makes `can_move` return `false`. -/
theorem can_move_eq_false {p : Player} {m : AtlasMap} {pos : ℤ × ℤ}
    (h : m.inBounds pos = false ∨ layerVal m.wall pos.1 pos.2 ≠ 0) :
    p.can_move m pos = false := by
  rcases h with h | h
  · simp [Player.can_move, h]
  · simp [Player.can_move, h]

/-- C2: when the computed destination of a movement operation is out of map
bounds or carries a nonzero wall value, the operation is a silent no-op: the
whole player state (position and direction) is returned unchanged. -/
theorem c2_illegal_move_noop (m : AtlasMap) (p : Player) (hInv : p.Inv m) :
    ((m.inBounds (p.get_dest_pos p.direction) = false ∨
        layerVal m.wall (p.get_dest_pos p.direction).1
          (p.get_dest_pos p.direction).2 ≠ 0) →
      p.move_forward m = p) ∧
    ((m.inBounds (p.get_dest_pos p.invert_direction) = false ∨
        layerVal m.wall (p.get_dest_pos p.invert_direction).1
          (p.get_dest_pos p.invert_direction).2 ≠ 0) →
      p.move_backward m = p) ∧
    ((m.inBounds (p.get_dest_pos (if p.direction - 1 < 0 then 3 else p.direction - 1)) = false ∨
        layerVal m.wall
          (p.get_dest_pos (if p.direction - 1 < 0 then 3 else p.direction - 1)).1
          (p.get_dest_pos (if p.direction - 1 < 0 then 3 else p.direction - 1)).2 ≠ 0) →
      p.strafe_left m = p) ∧
    ((m.inBounds (p.get_dest_pos (Int.tmod (p.direction + 1) 4)) = false ∨
        layerVal m.wall (p.get_dest_pos (Int.tmod (p.direction + 1) 4)).1
          (p.get_dest_pos (Int.tmod (p.direction + 1) 4)).2 ≠ 0) →
      p.strafe_right m = p) := by
  refine ⟨fun h => ?_, fun h => ?_, fun h => ?_, fun h => ?_⟩
  · simp only [Player.move_forward]
    rw [can_move_eq_false h]
    simp
  · simp only [Player.move_backward]
    rw [can_move_eq_false h]
    simp
  · simp only [Player.strafe_left]
    rw [can_move_eq_false h]
    simp
  · simp only [Player.strafe_right]
    rw [can_move_eq_false h]
    simp

/-- Witness for C2: the spec's §8 scenario; the player at `(1,1)` facing
north with a wall at `(1,0)` stays exactly in place on `move_forward`. -/
theorem c2_witness :
    exPlayer0.Inv exMap3 ∧ layerVal exMap3.wall 1 0 ≠ 0 ∧
    exPlayer0.move_forward exMap3 = exPlayer0 := by
  have hdest : exPlayer0.get_dest_pos exPlayer0.direction = (1, 0) := by
    rw [show exPlayer0.direction = 0 from rfl, get_dest_pos_zero]
    decide
  refine ⟨by decide, by decide, ?_⟩
  exact (c2_illegal_move_noop exMap3 exPlayer0 (by decide)).1
    (Or.inr (by rw [hdest]; decide))

/-- C10: movement legality depends only on the wall layer. An in-bounds
destination with wall value `0` makes `can_move` true — also after replacing
the floor, ceiling and object layers arbitrarily — and each movement
operation whose computed destination it is commits the move. -/
theorem c10_wall_only_legality (m : AtlasMap) (p : Player) (pos : ℤ × ℤ)
    (fl ce ob : List (List ℕ))
    (hin : m.inBounds pos = true)
    (hw : layerVal m.wall pos.1 pos.2 = 0) :
    p.can_move m pos = true ∧
    p.can_move { m with floor := fl, ceiling := ce, object := ob } pos = true ∧
    (pos = p.get_dest_pos p.direction →
      p.move_forward m = { p with x := pos.1, y := pos.2 }) ∧
    (pos = p.get_dest_pos p.invert_direction →
      p.move_backward m = { p with x := pos.1, y := pos.2 }) ∧
    (pos = p.get_dest_pos (if p.direction - 1 < 0 then 3 else p.direction - 1) →
      p.strafe_left m = { p with x := pos.1, y := pos.2 }) ∧
    (pos = p.get_dest_pos (Int.tmod (p.direction + 1) 4) →
      p.strafe_right m = { p with x := pos.1, y := pos.2 }) := by
  have hcan : p.can_move m pos = true := by
    simp [Player.can_move, hin, hw]
  refine ⟨hcan, ?_, fun he => ?_, fun he => ?_, fun he => ?_, fun he => ?_⟩
  · simp only [Player.can_move, hw]
    have hin2 : AtlasMap.inBounds { m with floor := fl, ceiling := ce, object := ob } pos = true := hin
    simp [hin2]
  · simp only [Player.move_forward]
    rw [← he, hcan]
    simp
  · simp only [Player.move_backward]
    rw [← he, hcan]
    simp
  · simp only [Player.strafe_left]
    rw [← he, hcan]
    simp
  · simp only [Player.strafe_right]
    rw [← he, hcan]
    simp

/-- Witness for C10: on the fully open 3×3 map, the forward move from
`(1, 1)` facing north commits to `(1, 0)`, whatever the other layers hold. -/
theorem c10_witness :
    exMapOpen.inBounds (1, 0) = true ∧ layerVal exMapOpen.wall 1 0 = 0 ∧
    exPlayer0.can_move exMapOpen (1, 0) = true ∧
    exPlayer0.can_move
      { exMapOpen with floor := [[9]], ceiling := [[9]], object := [[9]] } (1, 0) = true ∧
    exPlayer0.move_forward exMapOpen = Player.mk 1 0 0 := by
  have h := c10_wall_only_legality exMapOpen exPlayer0 (1, 0) [[9]] [[9]] [[9]]
    (by decide) (by decide)
  refine ⟨by decide, by decide, h.1, h.2.1, ?_⟩
  have hc := h.2.2.1 (by rw [show exPlayer0.direction = 0 from rfl, get_dest_pos_zero]; decide)
  exact hc

/-- Flat-mapping a cell function over laterals paired with a fixed forward
value is flat-mapping over the laterals. -/
theorem flatMap_pair_map {α : Type} (l : List ℤ) (z : ℤ) (f : ℤ → ℤ → List α) :
    ((l.map fun x => (x, z)).flatMap fun q => f q.1 q.2) = l.flatMap fun x => f x z := by
  induction l with
  | nil => rfl
  | cons a t ih =>
    simp only [List.map_cons, List.flatMap_cons]
    rw [ih]

/-- C5: `AtlasWorld::render` emits exactly the concatenation of the
`draw_map_square` outputs taken in the spec's traversal order: each forward
value from `-render_depth` to `0`, and within it the laterals from
`-render_width/2` up to but excluding `0` in increasing order, then from
`render_width/2` down to `0` in decreasing order. -/
theorem c5_traversal_order (w : AtlasWorld) :
    w.render = (specTraversalOrder w.render_depth w.render_width).flatMap
      fun q => w.draw_map_square q.1 q.2 := by
  unfold AtlasWorld.render specTraversalOrder
  rw [Int.neg_tdiv, List.flatMap_assoc]
  congr 1
  funext z
  rw [List.flatMap_append, flatMap_pair_map, flatMap_pair_map]

/-- The `get_tile` scanning loop returns the first list entry satisfying the
match predicate. -/
theorem findFirstTile_eq (l : List Tile) (x z : ℤ) (o : Option String) :
    findFirstTile l x z o = l.find? (tileMatches x z o) := by
  induction l with
  | nil => rfl
  | cons t rest ih =>
    by_cases h1 : (t.x == x && t.z == z) = true
    · by_cases h2 : (t.orientation.isNone || t.orientation == o) = true
      · simp only [findFirstTile]
        rw [if_pos h1, if_pos h2, List.find?_cons_of_pos _ (by simp [tileMatches, h1, h2])]
      · simp only [findFirstTile]
        rw [if_pos h1, if_neg h2, ih, List.find?_cons_of_neg _ (by simp [tileMatches, h1, h2])]
    · simp only [findFirstTile]
      rw [if_neg h1, ih, List.find?_cons_of_neg _ (by simp [tileMatches, h1])]

/-- C6: `get_tile` returns the first tile, in the stored layer's list order,
whose `(x, z)` equals the query and whose orientation is `none` or equal to
the query orientation (`List.find?` of the loop's predicate), and `none` when
the scan finds nothing; a tile whose orientation is `none` satisfies the
predicate for every query orientation at its own `(x, z)`. -/
theorem c6_get_tile_first_match (c : AtlasCollection) (atlas_id layer_id : String)
    (x z : ℤ) (o : Option String) :
    c.get_tile atlas_id layer_id x z o =
      ((List.lookup atlas_id c).bind fun atlas =>
        (List.lookup layer_id atlas.atlas_info.layers).bind fun layer =>
          layer.tiles.find? (tileMatches x z o)) ∧
    ∀ ac sc : Coords,
      tileMatches x z o
        { atlas_coords := ac, screen_coords := sc, x := x, z := z,
          orientation := none } = true := by
  constructor
  · rcases hA : List.lookup atlas_id c with _ | atlas
    · simp [AtlasCollection.get_tile, hA]
    · rcases hL : List.lookup layer_id atlas.atlas_info.layers with _ | layer
      · simp [AtlasCollection.get_tile, hA, hL]
      · simp [AtlasCollection.get_tile, hA, hL, findFirstTile_eq]
  · intro ac sc
    simp [tileMatches]

/-- C8: a `get_tile` query with an atlas id absent from the collection, or a
layer id absent from the found atlas's layer map, returns `none` (and raises
no error: the lookup is total). -/
theorem c8_missing_lookup (c : AtlasCollection) (atlas_id layer_id : String)
    (x z : ℤ) (o : Option String) :
    (List.lookup atlas_id c = none → c.get_tile atlas_id layer_id x z o = none) ∧
    (∀ atlas, List.lookup atlas_id c = some atlas →
      List.lookup layer_id atlas.atlas_info.layers = none →
      c.get_tile atlas_id layer_id x z o = none) := by
  constructor
  · intro h
    simp [AtlasCollection.get_tile, h]
  · intro atlas h1 h2
    simp [AtlasCollection.get_tile, h1, h2]

/-- Witness for C8 on a one-atlas collection: both a missing atlas id and a
missing layer id yield `none`. -/
theorem c8_witness :
    exCollection.get_tile "missing" "floor-1" 0 0 none = none ∧
    exCollection.get_tile "dungeon" "missing" 0 0 none = none :=
  ⟨(c8_missing_lookup exCollection "missing" "floor-1" 0 0 none).1 (by decide),
   (c8_missing_lookup exCollection "dungeon" "missing" 0 0 none).2 exAtlas
     (by decide) (by decide)⟩

/-- C7: for an in-bounds projected cell with a nonzero object value `v`,
`draw_objects` requests exactly one tile, from atlas `"common_objects"` and
layer `"object-{v}"`, at the cell's local coordinates, with orientation
determined solely by the player's facing: `0 → "front"`, `1 → "right"`,
`2 → "back"`, `3 → "left"`. -/
theorem c7_object_orientation (w : AtlasWorld) (x z : ℤ)
    (hin : w.map.inBounds (w.player.get_direction_vector_offsets x z) = true)
    (hv : layerVal w.map.object (w.player.get_direction_vector_offsets x z).1
        (w.player.get_direction_vector_offsets x z).2 ≠ 0) :
    (w.player.direction = 0 → w.draw_objects x z =
      [⟨"common_objects",
        "object-" ++ toString (layerVal w.map.object
          (w.player.get_direction_vector_offsets x z).1
          (w.player.get_direction_vector_offsets x z).2),
        x, z, some "front"⟩]) ∧
    (w.player.direction = 1 → w.draw_objects x z =
      [⟨"common_objects",
        "object-" ++ toString (layerVal w.map.object
          (w.player.get_direction_vector_offsets x z).1
          (w.player.get_direction_vector_offsets x z).2),
        x, z, some "right"⟩]) ∧
    (w.player.direction = 2 → w.draw_objects x z =
      [⟨"common_objects",
        "object-" ++ toString (layerVal w.map.object
          (w.player.get_direction_vector_offsets x z).1
          (w.player.get_direction_vector_offsets x z).2),
        x, z, some "back"⟩]) ∧
    (w.player.direction = 3 → w.draw_objects x z =
      [⟨"common_objects",
        "object-" ++ toString (layerVal w.map.object
          (w.player.get_direction_vector_offsets x z).1
          (w.player.get_direction_vector_offsets x z).2),
        x, z, some "left"⟩]) := by
  refine ⟨fun h => ?_, fun h => ?_, fun h => ?_, fun h => ?_⟩ <;>
    simp [AtlasWorld.draw_objects, hin, hv, h]

/-- Witness for C7: the spec's §8 scenario; object value `3` at world cell
`(4, 4)`, player adjacent at `(4, 3)` facing south (`direction = 2`), cell
one step ahead at local `(0, -1)`, yielding a `"back"`-oriented request for
layer `"object-3"` from atlas `"common_objects"`. -/
theorem c7_witness :
    exMapObj.inBounds (exPlayerS.get_direction_vector_offsets 0 (-1)) = true ∧
    layerVal exMapObj.object 4 4 = 3 ∧
    exWorldObj.draw_objects 0 (-1) =
      [⟨"common_objects", "object-" ++ toString (3 : ℕ), 0, -1, some "back"⟩] := by
  refine ⟨by decide, by decide, ?_⟩
  exact (c7_object_orientation exWorldObj 0 (-1) (by decide) (by decide)).2.2.1 rfl
